import Mathlib

/-!
# Verification of the `appdb` layer (Go, `appdb.go`)

A shallow embedding of the `appdb` package: a small library that creates,
opens and validates a SQLite database file for a host application, storing a
32-bit fingerprint (3 bytes of SHA-256 of the app name, plus the schema
version byte) in the `user_version` pragma register.

Machine integers are modelled as `Nat` with explicit `% 2^w` where the Go
code relies on fixed width.  The SQL engine and the filesystem are external
collaborators; they are modelled by explicit state (`DbFile`, `Fs`) and by a
failure oracle (`fails : String → Option EngineErr`) saying which statements
the engine rejects.  Every Go function of the layer is embedded under its
source name.
-/

namespace Appdb

/-! ## 32-bit helpers -/

/-- Truncate to 32 bits, as Go `uint32` arithmetic does. -/
def w32 (n : Nat) : Nat := n % 4294967296

/-- 32-bit rotate right. -/
def rotr32 (x n : Nat) : Nat := w32 ((x >>> n) ||| (x <<< (32 - n)))

/-! ## SHA-256 (model of Go `crypto/sha256.Sum256`)

Bytes are `Nat` values `< 256`; words are `Nat` values `< 2^32`. -/

def shaCh (x y z : Nat) : Nat := (x &&& y) ^^^ ((4294967295 ^^^ x) &&& z)

def shaMaj (x y z : Nat) : Nat := (x &&& y) ^^^ (x &&& z) ^^^ (y &&& z)

def bigSigma0 (x : Nat) : Nat := rotr32 x 2 ^^^ rotr32 x 13 ^^^ rotr32 x 22

def bigSigma1 (x : Nat) : Nat := rotr32 x 6 ^^^ rotr32 x 11 ^^^ rotr32 x 25

def smallSigma0 (x : Nat) : Nat := rotr32 x 7 ^^^ rotr32 x 18 ^^^ (x >>> 3)

def smallSigma1 (x : Nat) : Nat := rotr32 x 17 ^^^ rotr32 x 19 ^^^ (x >>> 10)

/-- The 64 SHA-256 round constants. -/
def shaK : List Nat :=
  [1116352408, 1899447441, 3049323471, 3921009573, 961987163,
   1508970993, 2453635748, 2870763221, 3624381080, 310598401,
   607225278, 1426881987, 1925078388, 2162078206, 2614888103,
   3248222580, 3835390401, 4022224774, 264347078, 604807628,
   770255983, 1249150122, 1555081692, 1996064986, 2554220882,
   2821834349, 2952996808, 3210313671, 3336571891, 3584528711,
   113926993, 338241895, 666307205, 773529912, 1294757372,
   1396182291, 1695183700, 1986661051, 2177026350, 2456956037,
   2730485921, 2820302411, 3259730800, 3345764771, 3516065817,
   3600352804, 4094571909, 275423344, 430227734, 506948616,
   659060556, 883997877, 958139571, 1322822218, 1537002063,
   1747873779, 1955562222, 2024104815, 2227730452, 2361852424,
   2428436474, 2756734187, 3204031479, 3329325298]

/-- The SHA-256 initial hash value, as the 8-tuple (a,b,c,d,e,f,g,h). -/
def shaInit : Nat × Nat × Nat × Nat × Nat × Nat × Nat × Nat :=
  (1779033703, 3144134277, 1013904242, 2773480762,
   1359893119, 2600822924, 528734635, 1541459225)

/-- Big-endian 8-byte encoding of a (bit-)length. -/
def lenBytes64 (n : Nat) : List Nat :=
  [(n >>> 56) % 256, (n >>> 48) % 256, (n >>> 40) % 256, (n >>> 32) % 256,
   (n >>> 24) % 256, (n >>> 16) % 256, (n >>> 8) % 256, n % 256]

/-- SHA-256 padding: append `0x80`, zeros to 56 mod 64, then the 64-bit
big-endian bit length. -/
def shaPad (m : List Nat) : List Nat :=
  m ++ [128] ++ List.replicate ((119 - m.length % 64) % 64) 0
    ++ lenBytes64 (8 * m.length)

/-- The 16 big-endian 32-bit words of a 64-byte block. -/
def blockWords (b : List Nat) : List Nat :=
  (List.range 16).map fun i =>
    (b.get! (4 * i) <<< 24) ||| (b.get! (4 * i + 1) <<< 16) |||
    (b.get! (4 * i + 2) <<< 8) ||| b.get! (4 * i + 3)

/-- Extend the 16 block words to the 64-entry message schedule. -/
def shaSchedule (b : List Nat) : List Nat :=
  (List.range 48).foldl
    (fun ws _ =>
      ws ++ [w32 (smallSigma1 (ws.get! (ws.length - 2)) + ws.get! (ws.length - 7)
                  + smallSigma0 (ws.get! (ws.length - 15)) + ws.get! (ws.length - 16))])
    (blockWords b)

/-- One SHA-256 compression round. -/
def shaRound (st : Nat × Nat × Nat × Nat × Nat × Nat × Nat × Nat) (kw : Nat × Nat) :
    Nat × Nat × Nat × Nat × Nat × Nat × Nat × Nat :=
  match st, kw with
  | (a, b, c, d, e, f, g, h), (k, w) =>
    let t1 := w32 (h + bigSigma1 e + shaCh e f g + k + w)
    let t2 := w32 (bigSigma0 a + shaMaj a b c)
    (w32 (t1 + t2), a, b, c, w32 (d + t1), e, f, g)

/-- Process one 64-byte block, updating the hash state. -/
def shaBlock (st : Nat × Nat × Nat × Nat × Nat × Nat × Nat × Nat) (b : List Nat) :
    Nat × Nat × Nat × Nat × Nat × Nat × Nat × Nat :=
  match st, (shaK.zip (shaSchedule b)).foldl shaRound st with
  | (h0, h1, h2, h3, h4, h5, h6, h7), (a, b', c, d, e, f, g, h) =>
    (w32 (h0 + a), w32 (h1 + b'), w32 (h2 + c), w32 (h3 + d),
     w32 (h4 + e), w32 (h5 + f), w32 (h6 + g), w32 (h7 + h))

/-- Big-endian 4-byte decomposition of a 32-bit word. -/
def wordBytes (w : Nat) : List Nat :=
  [(w >>> 24) % 256, (w >>> 16) % 256, (w >>> 8) % 256, w % 256]

/-- The final SHA-256 hash state of a byte sequence, as the 8-word tuple. -/
def sha256Words (m : List Nat) : Nat × Nat × Nat × Nat × Nat × Nat × Nat × Nat :=
  let p := shaPad m
  let blocks := (List.range (p.length / 64)).map fun i => (p.drop (64 * i)).take 64
  blocks.foldl shaBlock shaInit

/-- SHA-256 digest (32 bytes) of a byte sequence: model of Go
`sha256.Sum256`. -/
def sha256Bytes (m : List Nat) : List Nat :=
  let w := sha256Words m
  wordBytes w.1 ++ wordBytes w.2.1 ++ wordBytes w.2.2.1 ++ wordBytes w.2.2.2.1 ++
  wordBytes w.2.2.2.2.1 ++ wordBytes w.2.2.2.2.2.1 ++ wordBytes w.2.2.2.2.2.2.1 ++
  wordBytes w.2.2.2.2.2.2.2

/-! ## UTF-8 bytes of a string (model of Go `[]byte(appName)`) -/

/-- UTF-8 encoding of one Unicode code point. -/
def utf8EncodeChar (c : Char) : List Nat :=
  let n := c.toNat
  if n < 0x80 then [n]
  else if n < 0x800 then [0xc0 ||| (n >>> 6), 0x80 ||| (n &&& 0x3f)]
  else if n < 0x10000 then
    [0xe0 ||| (n >>> 12), 0x80 ||| ((n >>> 6) &&& 0x3f), 0x80 ||| (n &&& 0x3f)]
  else
    [0xf0 ||| (n >>> 18), 0x80 ||| ((n >>> 12) &&& 0x3f),
     0x80 ||| ((n >>> 6) &&& 0x3f), 0x80 ||| (n &&& 0x3f)]

/-- The UTF-8 bytes of a string. -/
def utf8Bytes (s : String) : List Nat := s.data.flatMap utf8EncodeChar

/-! ## The fingerprint (Go `getUserVersion`) -/

/-- Model of Go `binary.LittleEndian.Uint32`: assemble 4 bytes,
least-significant first. -/
def leUint32 (s : List Nat) : Nat :=
  s.get! 0 ||| (s.get! 1 <<< 8) ||| (s.get! 2 <<< 16) ||| (s.get! 3 <<< 24)

/-- Go `getUserVersion`: the `user_version` fingerprint for
`(appName, schemaVersion)` — first 3 bytes of SHA-256 of the app name,
then the schema version byte, read as a little-endian `uint32`.
`schemaVersion` is a Go `uint8`; theorems carry the bound `< 256`. -/
def getUserVersion (appName : String) (schemaVersion : Nat) : Nat :=
  let sum := sha256Bytes (utf8Bytes appName)
  let s := [sum.get! 0, sum.get! 1, sum.get! 2, schemaVersion]
  leUint32 s

/-! ## Decimal rendering and parsing

`initSchema` embeds the fingerprint into the statement text with
`fmt.Sprintf("PRAGMA user_version = %d ;", ...)`; the engine parses it back.
`natRepr` models `%d`, `digitsToNat` the engine's decimal scan. -/

/-- The decimal digit character for `n` (`n < 10`; larger values clamp to 9,
never reached). -/
def digitChar (n : Nat) : Char :=
  match n with
  | 0 => '0' | 1 => '1' | 2 => '2' | 3 => '3' | 4 => '4'
  | 5 => '5' | 6 => '6' | 7 => '7' | 8 => '8' | _ => '9'

/-- Numeric value of a decimal digit character. -/
def digitVal (c : Char) : Nat := c.toNat - 48

/-- Decimal digits of `n`, most significant first; `fuel` bounds the
recursion depth (any `fuel > n` is exact). -/
def natDigitsAux (fuel n : Nat) : List Char :=
  match fuel with
  | 0 => []
  | fuel + 1 =>
    if n < 10 then [digitChar n]
    else natDigitsAux fuel (n / 10) ++ [digitChar (n % 10)]

/-- Decimal digits of `n`, most significant first. -/
def natDigits (n : Nat) : List Char := natDigitsAux (n + 1) n

/-- Decimal rendering of `n`: model of Go `fmt.Sprintf("%d", n)`. -/
def natRepr (n : Nat) : String := String.mk (natDigits n)

/-- Value of a decimal digit string, most significant first. -/
def digitsToNat (cs : List Char) : Nat :=
  cs.foldl (fun a c => 10 * a + digitVal c) 0

/-! ## The engine and filesystem model

The SQL engine and the filesystem are external collaborators (spec §1, §6):
the engine provides statement execution, the `user_version` register and the
`foreign_keys` flag; statement failures are injected through an oracle
`fails : String → Option EngineErr` saying which statement texts the engine
rejects. -/

/-- An error produced by the SQL engine (prepare/execute failure). -/
structure EngineErr where
  msg : String
deriving DecidableEq

/-- The persistent state of one database file: the `user_version` register,
the `foreign_keys` flag, and the statements applied to the schema so far
(plain ones, and bulk `(statement, value)` executions). -/
structure DbFile where
  userVersion : Nat
  foreignKeys : Bool
  applied : List String
  bulk : List (String × String)
deriving DecidableEq

/-- A brand-new database file (Go `os.Create` makes an empty file; the engine
reads it as an empty database whose `user_version` register is 0). -/
def emptyDb : DbFile := ⟨0, false, [], []⟩

/-- The errors surfaced by this layer, one constructor per Go error shape:
`SchemaVersionError`, `AppIdError`, `SchemaError`, the `os.Stat` error for a
missing path, and `os.ErrInvalid`. -/
inductive AppError
  | schemaVersionErr (version expectedVersion : Nat)
  | appIdErr (id expectedId : Nat)
  | schemaErr (statement : String) (err : EngineErr)
  | statNotExistErr (path : String)
  | invalidErr
deriving DecidableEq

/-- Statement text of Go
`fmt.Sprintf("PRAGMA user_version = %d ;", getUserVersion(...))`. -/
def userVersionStmt (n : Nat) : String :=
  "PRAGMA user_version = " ++ natRepr n ++ " ;"

/-- The second statement `initSchema` issues. -/
def foreignKeysStmt : String := "PRAGMA foreign_keys = ON;"

/-- The characters of the fixed head of a `user_version` pragma statement. -/
def uvHead : List Char := "PRAGMA user_version = ".data

/-- Does this statement text write the `user_version` register? -/
def isUserVersionStmt (s : String) : Bool := uvHead.isPrefixOf s.data

/-- The register value a `user_version` pragma statement writes. -/
def parseUserVersion (s : String) : Nat :=
  digitsToNat ((s.data.drop 22).takeWhile Char.isDigit)

/-- Engine semantics of one successfully executed statement: a
`user_version` pragma writes the register, the `foreign_keys` pragma sets the
flag, any other statement is recorded on the schema. -/
def applyStmt (s : String) (db : DbFile) : DbFile :=
  if isUserVersionStmt s then { db with userVersion := parseUserVersion s }
  else if s = foreignKeysStmt then { db with foreignKeys := true }
  else { db with applied := db.applied ++ [s] }

/-- Go `ExecSqlStatement`: prepare and execute one statement; the oracle says
whether the engine rejects it (the prepared statement is closed by `defer`
either way and holds no state here). -/
def ExecSqlStatement (fails : String → Option EngineErr) (db : DbFile)
    (sql : String) : DbFile × Option EngineErr :=
  match fails sql with
  | some e => (db, some e)
  | none => (applyStmt sql db, none)

/-- The statement loop of Go `initSchema`: execute in order, stop at the
first failure, wrapping it with the failing statement's text; statements
already applied stay applied. -/
def runSchema (fails : String → Option EngineErr) :
    List String → DbFile → DbFile × Option AppError
  | [], db => (db, none)
  | s :: rest, db =>
    match ExecSqlStatement fails db s with
    | (_, some e) => (db, some (.schemaErr s e))
    | (db', none) => runSchema fails rest db'

/-- The ordered statement list Go `initSchema` builds. -/
def initStmts (appName : String) (schemaVersion : Nat) (schema : List String) :
    List String :=
  userVersionStmt (getUserVersion appName schemaVersion) ::
    foreignKeysStmt :: schema

/-- Go `initSchema`: set the register, enable foreign keys, then run the
caller's schema statements in order. -/
def initSchema (fails : String → Option EngineErr) (db : DbFile)
    (appName : String) (schemaVersion : Nat) (schema : List String) :
    DbFile × Option AppError :=
  runSchema fails (initStmts appName schemaVersion schema) db

/-- Core of Go `validateDB`, on the scanned register value: compare against
the expected fingerprint; on mismatch report the identity sub-fields when
they differ, else the version sub-fields. -/
def validateUserVersion (user_version : Nat) (appName : String)
    (schemaVersion : Nat) : Option AppError :=
  let uv := getUserVersion appName schemaVersion
  if uv ≠ user_version then
    let dbAppId := user_version &&& 0xffffff
    let expectedId := uv &&& 0xffffff
    let dbSchemaVers := (user_version >>> 24) % 256
    let expectedSchemaVers := (uv >>> 24) % 256
    if dbAppId ≠ expectedId then some (.appIdErr dbAppId expectedId)
    else if dbSchemaVers ≠ expectedSchemaVers then
      some (.schemaVersionErr dbSchemaVers expectedSchemaVers)
    else none
  else none

/-- Go `validateDB`: read the register (`PRAGMA user_version`) and check it. -/
def validateDB (db : DbFile) (appName : String) (schemaVersion : Nat) :
    Option AppError :=
  validateUserVersion db.userVersion appName schemaVersion

/-! ## The filesystem and the lifecycle operations -/

/-- What `os.Stat` finds at a path. -/
inductive FsEntry
  | missing
  | regular (db : DbFile)
  | directory
deriving DecidableEq

/-- The filesystem: one entry per path. -/
def Fs := String → FsEntry

/-- Write a database file at a path. -/
def updateFs (fs : Fs) (path : String) (db : DbFile) : Fs :=
  fun p => if p = path then .regular db else fs p

/-- Handle lifecycle events of one open/validate run, for leak checking. -/
inductive HEvent
  | opened
  | closed
deriving DecidableEq

/-- Go `openAppDBNoValidate`: stat the path; a missing path surfaces the stat
error, a non-regular entry surfaces `os.ErrInvalid`, a regular file opens. -/
def openAppDBNoValidate (fs : Fs) (dbPath : String) : Except AppError DbFile :=
  match fs dbPath with
  | .missing => .error (.statNotExistErr dbPath)
  | .regular db => .ok db
  | .directory => .error .invalidErr

/-- Go `OpenAppDB`: open without validation, validate, and on a validation
failure close the handle before returning the error.  The second component
is the handle-event trace, the third the (unmodified: open and validation
only read) filesystem. -/
def OpenAppDB (fs : Fs) (dbPath appName : String) (schemaVersion : Nat) :
    Except AppError DbFile × List HEvent × Fs :=
  match openAppDBNoValidate fs dbPath with
  | .error e => (.error e, [], fs)
  | .ok db =>
    match validateDB db appName schemaVersion with
    | some e => (.error e, [.opened, .closed], fs)
    | none => (.ok db, [.opened], fs)

/-- Go `InitAppDB`: if nothing exists at the path, create directories and an
empty file, open it and run `initSchema` — whose error the source line
`initSchema(db, appName, schemaVersion, schema)` DISCARDS, so the creation
branch always returns the handle; otherwise delegate to `OpenAppDB`. -/
def InitAppDB (fails : String → Option EngineErr) (fs : Fs)
    (dbPath appName : String) (schemaVersion : Nat) (schema : List String) :
    Except AppError DbFile × List HEvent × Fs :=
  match fs dbPath with
  | .missing =>
    match openAppDBNoValidate (updateFs fs dbPath emptyDb) dbPath with
    | .error e => (.error e, [], updateFs fs dbPath emptyDb)
    | .ok db =>
      (.ok (initSchema fails db appName schemaVersion schema).1, [.opened],
       updateFs fs dbPath (initSchema fails db appName schemaVersion schema).1)
  | _ => OpenAppDB fs dbPath appName schemaVersion

/-! ## Bulk execution -/

/-- Prepared-statement events of one `ExecBulkSql` run. -/
inductive BulkEv
  | prepared
  | execed (v : String)
  | closedStmt
deriving DecidableEq

/-- The execution loop of Go `ExecBulkSql`: one `stmt.Exec(values[v])` per
value, in order, stopping at the first failure.  Returns the database, the
first error, and the trace of attempted executions. -/
def execBulkLoop (execFails : String → Option EngineErr) (sqlText : String) :
    List String → DbFile → DbFile × Option EngineErr × List BulkEv
  | [], db => (db, none, [])
  | v :: rest, db =>
    match execFails v with
    | some e => (db, some e, [.execed v])
    | none =>
      match execBulkLoop execFails sqlText rest
          { db with bulk := db.bulk ++ [(sqlText, v)] } with
      | (db', r, evs) => (db', r, .execed v :: evs)

/-- Go `ExecBulkSql`: prepare once (`prepFails` says whether the engine
rejects the prepare), execute once per value in order stopping at the first
failure, and close the prepared statement (`defer stmt.Close()`) on every
exit path that prepared one. -/
def ExecBulkSql (prepFails : Option EngineErr)
    (execFails : String → Option EngineErr) (db : DbFile) (sqlText : String)
    (values : List String) : DbFile × Option EngineErr × List BulkEv :=
  match prepFails with
  | some e => (db, some e, [])
  | none =>
    match execBulkLoop execFails sqlText values db with
    | (db', r, evs) => (db', r, .prepared :: evs ++ [.closedStmt])

/-! ## Derived state functions and concrete oracles -/

/-- The database state after applying a statement list in order (all
succeeding). -/
def applyStmts (l : List String) (db : DbFile) : DbFile :=
  l.foldl (fun d s => applyStmt s d) db

/-- The database state after a bulk run of `sqlText` over the given values. -/
def bulkApply (sqlText : String) (vs : List String) (db : DbFile) : DbFile :=
  { db with bulk := db.bulk ++ vs.map fun v => (sqlText, v) }

/-- An engine that rejects every statement, as a failing disk would. -/
def failEverything : String → Option EngineErr :=
  fun _ => some ⟨"disk I/O error"⟩

/-- An engine that accepts every statement. -/
def noFail : String → Option EngineErr := fun _ => none

/-- An engine that rejects exactly the statement text `"BAD"`. -/
def failOnBad : String → Option EngineErr :=
  fun s => if s = "BAD" then some ⟨"near BAD: syntax error"⟩ else none

/-- An engine that rejects exactly the bulk value `"b"`. -/
def failOnB : String → Option EngineErr :=
  fun v => if v = "b" then some ⟨"constraint failed"⟩ else none

/-- An empty filesystem. -/
def emptyFs : Fs := fun _ => FsEntry.missing

/-- Decidable equality of results, for concrete evaluations. -/
instance instDecEqExcept {ε α : Type} [DecidableEq ε] [DecidableEq α] :
    DecidableEq (Except ε α) := fun a b =>
  match a, b with
  | .error x, .error y =>
    if h : x = y then isTrue (h ▸ rfl)
    else isFalse fun he => h (by cases he; rfl)
  | .ok x, .ok y =>
    if h : x = y then isTrue (h ▸ rfl)
    else isFalse fun he => h (by cases he; rfl)
  | .error _, .ok _ => isFalse fun he => Except.noConfusion he
  | .ok _, .error _ => isFalse fun he => Except.noConfusion he

/-! ## Arithmetic facts about the fingerprint -/

theorem lor_shiftLeft_eq_add {a : Nat} (b n : Nat) (h : a < 2 ^ n) :
    a ||| (b <<< n) = 2 ^ n * b + a := by
  apply Nat.eq_of_testBit_eq
  intro i
  rw [Nat.testBit_lor, Nat.testBit_mul_pow_two_add b h i, Nat.testBit_shiftLeft]
  by_cases hi : i < n
  · have : ¬ n ≤ i := by omega
    simp [hi, this]
  · have hn : n ≤ i := by omega
    have ha : a < 2 ^ i := lt_of_lt_of_le h (Nat.pow_le_pow_right (by omega) hn)
    simp [hi, hn, Nat.testBit_lt_two_pow ha]

theorem leUint32_eq_add {a b c d : Nat} (ha : a < 256) (hb : b < 256)
    (hc : c < 256) (_hd : d < 256) :
    leUint32 [a, b, c, d] = a + 256 * b + 65536 * c + 16777216 * d := by
  -- the fourth bound is part of the interface (the byte is a Go uint8) but the
  -- high byte needs no bound for the or-to-add conversion
  show a ||| (b <<< 8) ||| (c <<< 16) ||| (d <<< 24)
      = a + 256 * b + 65536 * c + 16777216 * d
  rw [lor_shiftLeft_eq_add b 8 (by omega)]
  rw [lor_shiftLeft_eq_add c 16 (by omega)]
  rw [lor_shiftLeft_eq_add d 24 (by omega)]
  ring

theorem wordBytes_mod (x : Nat) : ∀ y ∈ wordBytes x, y < 256 := by
  simp only [wordBytes, List.mem_cons, List.not_mem_nil, or_false]
  rintro y (rfl | rfl | rfl | rfl) <;> exact Nat.mod_lt _ (by omega)

theorem sha256Bytes_bytes_lt (m : List Nat) : ∀ y ∈ sha256Bytes m, y < 256 := by
  intro y hy
  simp only [sha256Bytes, List.mem_append] at hy
  rcases hy with ((((((h | h) | h) | h) | h) | h) | h) | h <;>
    exact wordBytes_mod _ _ h

theorem sha256Bytes_length (m : List Nat) : (sha256Bytes m).length = 32 := by
  simp [sha256Bytes, wordBytes]

theorem sha256Bytes_get!_lt (m : List Nat) (i : Nat) (hi : i < 32) :
    (sha256Bytes m).get! i < 256 := by
  have hlen : i < (sha256Bytes m).length := by rw [sha256Bytes_length]; omega
  have hsome := List.get?_eq_get hlen
  rw [List.get!_of_get? hsome]
  exact sha256Bytes_bytes_lt m _ (List.get?_mem hsome)

/-- Fingerprint decomposition: `getUserVersion` is the positional sum of the
first three digest bytes and the schema version byte. -/
theorem getUserVersion_eq_add (appName : String) {v : Nat} (hv : v < 256) :
    getUserVersion appName v =
      (sha256Bytes (utf8Bytes appName)).get! 0
      + 256 * (sha256Bytes (utf8Bytes appName)).get! 1
      + 65536 * (sha256Bytes (utf8Bytes appName)).get! 2
      + 16777216 * v :=
  leUint32_eq_add (sha256Bytes_get!_lt _ 0 (by omega))
    (sha256Bytes_get!_lt _ 1 (by omega)) (sha256Bytes_get!_lt _ 2 (by omega)) hv

theorem getUserVersion_lt (appName : String) {v : Nat} (hv : v < 256) :
    getUserVersion appName v < 4294967296 := by
  have h := getUserVersion_eq_add appName hv
  have h0 := sha256Bytes_get!_lt (utf8Bytes appName) 0 (by omega)
  have h1 := sha256Bytes_get!_lt (utf8Bytes appName) 1 (by omega)
  have h2 := sha256Bytes_get!_lt (utf8Bytes appName) 2 (by omega)
  omega

theorem getUserVersion_shiftRight24 (appName : String) {v : Nat} (hv : v < 256) :
    getUserVersion appName v >>> 24 = v := by
  rw [Nat.shiftRight_eq_div_pow, getUserVersion_eq_add appName hv]
  have h0 := sha256Bytes_get!_lt (utf8Bytes appName) 0 (by omega)
  have h1 := sha256Bytes_get!_lt (utf8Bytes appName) 1 (by omega)
  have h2 := sha256Bytes_get!_lt (utf8Bytes appName) 2 (by omega)
  omega

theorem getUserVersion_low24 (appName : String) {v : Nat} (hv : v < 256) :
    getUserVersion appName v &&& 0xffffff =
      (sha256Bytes (utf8Bytes appName)).get! 0
      + 256 * (sha256Bytes (utf8Bytes appName)).get! 1
      + 65536 * (sha256Bytes (utf8Bytes appName)).get! 2 := by
  have : (0xffffff : Nat) = 2 ^ 24 - 1 := by norm_num
  rw [this, Nat.and_pow_two_sub_one_eq_mod, getUserVersion_eq_add appName hv]
  have h0 := sha256Bytes_get!_lt (utf8Bytes appName) 0 (by omega)
  have h1 := sha256Bytes_get!_lt (utf8Bytes appName) 1 (by omega)
  have h2 := sha256Bytes_get!_lt (utf8Bytes appName) 2 (by omega)
  omega

/-! ## Decimal round-trip: the register value survives the statement text -/

theorem digitVal_digitChar {n : Nat} (h : n < 10) : digitVal (digitChar n) = n := by
  interval_cases n <;> rfl

theorem isDigit_digitChar {n : Nat} (h : n < 10) : (digitChar n).isDigit = true := by
  interval_cases n <;> rfl

theorem natDigitsAux_digits (fuel : Nat) :
    ∀ n c, c ∈ natDigitsAux fuel n → c.isDigit = true := by
  induction fuel with
  | zero => intro n c hc; simp [natDigitsAux] at hc
  | succ f ih =>
    intro n c hc
    rw [natDigitsAux] at hc
    by_cases h10 : n < 10
    · rw [if_pos h10] at hc
      simp only [List.mem_singleton] at hc
      exact hc ▸ isDigit_digitChar h10
    · rw [if_neg h10] at hc
      rcases List.mem_append.mp hc with h | h
      · exact ih _ _ h
      · simp only [List.mem_singleton] at h
        exact h ▸ isDigit_digitChar (Nat.mod_lt _ (by omega))

theorem natDigitsAux_foldl (fuel : Nat) :
    ∀ n, n < fuel → ∃ k, 0 < k ∧ ∀ acc,
      List.foldl (fun a c => 10 * a + digitVal c) acc (natDigitsAux fuel n)
        = acc * 10 ^ k + n := by
  induction fuel with
  | zero => intro n h; omega
  | succ f ih =>
    intro n h
    by_cases h10 : n < 10
    · refine ⟨1, by omega, fun acc => ?_⟩
      rw [natDigitsAux, if_pos h10]
      simp [digitVal_digitChar h10]
      ring
    · obtain ⟨k, hk, hfold⟩ := ih (n / 10) (by omega)
      refine ⟨k + 1, by omega, fun acc => ?_⟩
      rw [natDigitsAux, if_neg h10, List.foldl_append, hfold]
      simp [digitVal_digitChar (show n % 10 < 10 by omega)]
      have hdm : 10 * (n / 10) + n % 10 = n := Nat.div_add_mod n 10
      calc 10 * (acc * 10 ^ k + n / 10) + n % 10
          = acc * (10 ^ k * 10) + (10 * (n / 10) + n % 10) := by ring
        _ = acc * 10 ^ (k + 1) + n := by rw [hdm, pow_succ]

theorem digitsToNat_natDigits (n : Nat) : digitsToNat (natDigits n) = n := by
  obtain ⟨k, _, h⟩ := natDigitsAux_foldl (n + 1) n (by omega)
  simpa [digitsToNat, natDigits] using h 0

theorem natDigits_digits (n : Nat) : ∀ c ∈ natDigits n, c.isDigit = true :=
  fun c hc => natDigitsAux_digits (n + 1) n c hc

theorem takeWhile_append_sep (p : Char → Bool) (l1 : List Char) (x : Char)
    (l2 : List Char) (h1 : ∀ c ∈ l1, p c = true) (hx : p x = false) :
    (l1 ++ x :: l2).takeWhile p = l1 := by
  induction l1 with
  | nil => simpa using List.takeWhile_cons_of_neg (l := l2) (by simp [hx])
  | cons a l ih =>
    rw [List.cons_append,
      List.takeWhile_cons_of_pos (h1 a (List.mem_cons_self a l)),
      ih fun c hc => h1 c (List.mem_cons_of_mem a hc)]

theorem userVersionStmt_data (n : Nat) :
    (userVersionStmt n).data = uvHead ++ (natDigits n ++ [' ', ';']) := by
  simp [userVersionStmt, natRepr, uvHead, List.append_assoc]

/-- Parsing the generated pragma statement recovers the register value. -/
theorem parseUserVersion_userVersionStmt (n : Nat) :
    parseUserVersion (userVersionStmt n) = n := by
  rw [parseUserVersion, userVersionStmt_data,
    List.drop_left' (show uvHead.length = 22 from rfl),
    takeWhile_append_sep _ _ ' ' [';'] (natDigits_digits n) rfl,
    digitsToNat_natDigits]

theorem isUserVersionStmt_userVersionStmt (n : Nat) :
    isUserVersionStmt (userVersionStmt n) = true := by
  rw [isUserVersionStmt, userVersionStmt_data]
  exact List.isPrefixOf_iff_prefix.mpr (List.prefix_append _ _)

/-- Setting the register: the engine effect of the generated first
statement. -/
theorem applyStmt_userVersionStmt (n : Nat) (db : DbFile) :
    applyStmt (userVersionStmt n) db = { db with userVersion := n } := by
  rw [applyStmt, if_pos (isUserVersionStmt_userVersionStmt n),
    parseUserVersion_userVersionStmt]

/-! ## SHA-256 test vectors

The embedding of `crypto/sha256` is checked against the official digests of
the empty message and of `"abc"`. -/

theorem sha256Bytes_empty_vector :
    sha256Bytes []
      = [227, 176, 196, 66, 152, 252, 28, 20, 154, 251, 244, 200,
         153, 111, 185, 36, 39, 174, 65, 228, 100, 155, 147, 76,
         164, 149, 153, 27, 120, 82, 184, 85] := by
  decide

theorem sha256Bytes_abc_vector :
    sha256Bytes (utf8Bytes "abc")
      = [186, 120, 22, 191, 143, 1, 207, 234, 65, 65, 64, 222,
         93, 174, 34, 35, 176, 3, 97, 163, 150, 23, 122, 156,
         180, 16, 255, 97, 242, 0, 21, 173] := by
  decide

/-! ## Validation case analysis -/

theorem validateUserVersion_of_eq {stored : Nat} (appName : String) (v : Nat)
    (h : stored = getUserVersion appName v) :
    validateUserVersion stored appName v = none := by
  simp [validateUserVersion, h]

theorem validateUserVersion_appId {stored : Nat} (appName : String) (v : Nat)
    (h : stored &&& 0xffffff ≠ getUserVersion appName v &&& 0xffffff) :
    validateUserVersion stored appName v
      = some (.appIdErr (stored &&& 0xffffff)
          (getUserVersion appName v &&& 0xffffff)) := by
  have hne : getUserVersion appName v ≠ stored := by
    intro he; exact h (by rw [he])
  simp only [validateUserVersion]
  rw [if_pos hne, if_pos h]

theorem validateUserVersion_schemaVers {stored : Nat} (appName : String)
    {v : Nat} (hst : stored < 4294967296) (hv : v < 256)
    (hne : stored ≠ getUserVersion appName v)
    (hid : stored &&& 0xffffff = getUserVersion appName v &&& 0xffffff) :
    validateUserVersion stored appName v
      = some (.schemaVersionErr ((stored >>> 24) % 256) v) := by
  have huv := getUserVersion_lt appName hv
  have h24 := getUserVersion_shiftRight24 appName hv
  have hmask : (0xffffff : Nat) = 2 ^ 24 - 1 := by norm_num
  rw [hmask, Nat.and_pow_two_sub_one_eq_mod, Nat.and_pow_two_sub_one_eq_mod] at hid
  have hhi : (stored >>> 24) % 256 ≠ (getUserVersion appName v >>> 24) % 256 := by
    rw [Nat.shiftRight_eq_div_pow, Nat.shiftRight_eq_div_pow] at *
    omega
  simp only [validateUserVersion]
  rw [if_pos fun he => hne he.symm,
    if_neg (by rw [hmask, Nat.and_pow_two_sub_one_eq_mod,
        Nat.and_pow_two_sub_one_eq_mod]; omega),
    if_pos hhi, h24, Nat.mod_eq_of_lt hv]

theorem validateUserVersion_of_ne {stored : Nat} (appName : String) {v : Nat}
    (hst : stored < 4294967296) (hv : v < 256)
    (hne : stored ≠ getUserVersion appName v) :
    validateUserVersion stored appName v
        = some (.appIdErr (stored &&& 0xffffff)
            (getUserVersion appName v &&& 0xffffff))
    ∨ validateUserVersion stored appName v
        = some (.schemaVersionErr ((stored >>> 24) % 256) v) := by
  by_cases hid : stored &&& 0xffffff = getUserVersion appName v &&& 0xffffff
  · exact Or.inr (validateUserVersion_schemaVers appName hst hv hne hid)
  · exact Or.inl (validateUserVersion_appId appName v hid)

theorem validateUserVersion_eq_none_iff {stored : Nat} (appName : String)
    {v : Nat} (hst : stored < 4294967296) (hv : v < 256) :
    validateUserVersion stored appName v = none
      ↔ stored = getUserVersion appName v := by
  constructor
  · intro h
    by_contra hne
    rcases validateUserVersion_of_ne appName hst hv hne with he | he <;>
      rw [he] at h <;> exact Option.noConfusion h
  · exact validateUserVersion_of_eq appName v

/-! ## Schema-run lemmas -/

theorem runSchema_all_ok (fails : String → Option EngineErr) :
    ∀ (l : List String) (db : DbFile), (∀ s ∈ l, fails s = none) →
      runSchema fails l db = (applyStmts l db, none) := by
  intro l
  induction l with
  | nil => intro db _; rfl
  | cons s rest ih =>
    intro db h
    have hs : fails s = none := h s (List.mem_cons_self s rest)
    simp only [runSchema, ExecSqlStatement, hs]
    exact ih (applyStmt s db) fun t ht => h t (List.mem_cons_of_mem s ht)

theorem runSchema_stops (fails : String → Option EngineErr) :
    ∀ (pre : List String) (s : String) (post : List String) (db : DbFile)
      (e : EngineErr), (∀ t ∈ pre, fails t = none) → fails s = some e →
      runSchema fails (pre ++ s :: post) db
        = (applyStmts pre db, some (.schemaErr s e)) := by
  intro pre
  induction pre with
  | nil =>
    intro s post db e _ hs
    simp only [List.nil_append, runSchema, ExecSqlStatement, hs]
    rfl
  | cons a rest ih =>
    intro s post db e hpre hs
    have ha : fails a = none := hpre a (List.mem_cons_self a rest)
    simp only [List.cons_append, runSchema, ExecSqlStatement, ha]
    exact ih s post (applyStmt a db) e
      (fun t ht => hpre t (List.mem_cons_of_mem a ht)) hs

theorem runSchema_cons_ok (fails : String → Option EngineErr) (s : String)
    (rest : List String) (db : DbFile) (hs : fails s = none) :
    runSchema fails (s :: rest) db = runSchema fails rest (applyStmt s db) := by
  conv_lhs => rw [runSchema]
  simp only [ExecSqlStatement, hs]

theorem runSchema_cons_fail (fails : String → Option EngineErr) (s : String)
    (rest : List String) (db : DbFile) (e : EngineErr) (hs : fails s = some e) :
    runSchema fails (s :: rest) db = (db, some (.schemaErr s e)) := by
  conv_lhs => rw [runSchema]
  simp only [ExecSqlStatement, hs]

theorem applyStmt_preserves {s : String} (db : DbFile)
    (h : isUserVersionStmt s = false) :
    (applyStmt s db).userVersion = db.userVersion := by
  rw [applyStmt, if_neg (by simp [h])]
  by_cases hf : s = foreignKeysStmt
  · rw [if_pos hf]
  · rw [if_neg hf]

theorem runSchema_preserves (fails : String → Option EngineErr) :
    ∀ (l : List String) (db : DbFile),
      (∀ s ∈ l, isUserVersionStmt s = false) →
      (runSchema fails l db).1.userVersion = db.userVersion := by
  intro l
  induction l with
  | nil => intro db _; rfl
  | cons s rest ih =>
    intro db h
    simp only [runSchema, ExecSqlStatement]
    cases hf : fails s with
    | some e => rfl
    | none =>
      have := ih (applyStmt s db) fun t ht => h t (List.mem_cons_of_mem s ht)
      rw [this, applyStmt_preserves db (h s (List.mem_cons_self s rest))]

/-! ## Bulk-run lemmas -/

theorem execBulkLoop_all_ok (execFails : String → Option EngineErr)
    (sqlText : String) :
    ∀ (vs : List String) (db : DbFile), (∀ v ∈ vs, execFails v = none) →
      execBulkLoop execFails sqlText vs db
        = (bulkApply sqlText vs db, none, vs.map BulkEv.execed) := by
  intro vs
  induction vs with
  | nil => intro db _; simp [execBulkLoop, bulkApply]
  | cons v rest ih =>
    intro db h
    have hv : execFails v = none := h v (List.mem_cons_self v rest)
    simp only [execBulkLoop, hv,
      ih _ fun u hu => h u (List.mem_cons_of_mem v hu)]
    simp [bulkApply, List.map_cons]

theorem execBulkLoop_stops (execFails : String → Option EngineErr)
    (sqlText : String) :
    ∀ (pre : List String) (u : String) (post : List String) (db : DbFile)
      (e : EngineErr), (∀ t ∈ pre, execFails t = none) → execFails u = some e →
      execBulkLoop execFails sqlText (pre ++ u :: post) db
        = (bulkApply sqlText pre db, some e,
           pre.map BulkEv.execed ++ [BulkEv.execed u]) := by
  intro pre
  induction pre with
  | nil =>
    intro u post db e _ hu
    simp [execBulkLoop, hu, bulkApply]
  | cons a rest ih =>
    intro u post db e hpre hu
    have ha : execFails a = none := hpre a (List.mem_cons_self a rest)
    simp only [List.cons_append, execBulkLoop, ha, List.append_eq]
    rw [ih u post { db with bulk := db.bulk ++ [(sqlText, a)] } e
      (fun t ht => hpre t (List.mem_cons_of_mem a ht)) hu]
    simp [bulkApply, List.map_cons]

theorem execBulkLoop_preserves (execFails : String → Option EngineErr)
    (sqlText : String) :
    ∀ (vs : List String) (db : DbFile),
      (execBulkLoop execFails sqlText vs db).1.userVersion = db.userVersion := by
  intro vs
  induction vs with
  | nil => intro db; rfl
  | cons v rest ih =>
    intro db
    simp only [execBulkLoop]
    cases hv : execFails v with
    | some e => rfl
    | none => exact ih _

/-! ## The claims -/

/-- C2: for every `appName` and `schemaVersion < 256`, `getUserVersion` is
the little-endian 32-bit assembly of the first three SHA-256 digest bytes of
the UTF-8 bytes of `appName` followed by the schema version byte: bits 0–23
are digest bytes 0, 1, 2 and bits 24–31 are the schema version; the result
fits in 32 bits, and the function is a pure total function (its type has no
error outcome). -/
theorem C2_fingerprint_le_assembly (appName : String) (v : Nat) (hv : v < 256) :
    getUserVersion appName v
        = leUint32 [(sha256Bytes (utf8Bytes appName)).get! 0,
            (sha256Bytes (utf8Bytes appName)).get! 1,
            (sha256Bytes (utf8Bytes appName)).get! 2, v]
    ∧ getUserVersion appName v % 256 = (sha256Bytes (utf8Bytes appName)).get! 0
    ∧ getUserVersion appName v >>> 8 % 256
        = (sha256Bytes (utf8Bytes appName)).get! 1
    ∧ getUserVersion appName v >>> 16 % 256
        = (sha256Bytes (utf8Bytes appName)).get! 2
    ∧ getUserVersion appName v >>> 24 = v
    ∧ getUserVersion appName v < 4294967296 := by
  have he := getUserVersion_eq_add appName hv
  have h0 := sha256Bytes_get!_lt (utf8Bytes appName) 0 (by omega)
  have h1 := sha256Bytes_get!_lt (utf8Bytes appName) 1 (by omega)
  have h2 := sha256Bytes_get!_lt (utf8Bytes appName) 2 (by omega)
  refine ⟨rfl, ?_, ?_, ?_, getUserVersion_shiftRight24 appName hv,
    getUserVersion_lt appName hv⟩
  · omega
  · rw [Nat.shiftRight_eq_div_pow]; omega
  · rw [Nat.shiftRight_eq_div_pow]; omega

/-- Witness for C2 at `("app", 3)`. -/
theorem C2_fingerprint_le_assembly_witness :
    (3 : Nat) < 256
    ∧ (getUserVersion "app" 3
        = leUint32 [(sha256Bytes (utf8Bytes "app")).get! 0,
            (sha256Bytes (utf8Bytes "app")).get! 1,
            (sha256Bytes (utf8Bytes "app")).get! 2, 3]
      ∧ getUserVersion "app" 3 % 256 = (sha256Bytes (utf8Bytes "app")).get! 0
      ∧ getUserVersion "app" 3 >>> 8 % 256
          = (sha256Bytes (utf8Bytes "app")).get! 1
      ∧ getUserVersion "app" 3 >>> 16 % 256
          = (sha256Bytes (utf8Bytes "app")).get! 2
      ∧ getUserVersion "app" 3 >>> 24 = 3
      ∧ getUserVersion "app" 3 < 4294967296) :=
  ⟨by norm_num, C2_fingerprint_le_assembly "app" 3 (by norm_num)⟩

/-- C3: on a register/fingerprint mismatch, a difference in the low-24-bit
identifier sub-fields is reported as an `AppIdError` carrying both
identifiers; only when the identifiers agree is a `SchemaVersionError`
carrying both 8-bit version numbers reported — identity mismatch takes
priority and a single error is surfaced.  Concretely, a register written
for `(appName, 3)` validated against `(appName, 4)` yields a
schema-version mismatch with stored 3, expected 4. -/
theorem C3_mismatch_priority (stored : Nat) (appName : String) (v : Nat)
    (hst : stored < 4294967296) (hv : v < 256) :
    (stored &&& 0xffffff ≠ getUserVersion appName v &&& 0xffffff →
      validateUserVersion stored appName v
        = some (.appIdErr (stored &&& 0xffffff)
            (getUserVersion appName v &&& 0xffffff)))
    ∧ (stored ≠ getUserVersion appName v →
        stored &&& 0xffffff = getUserVersion appName v &&& 0xffffff →
        validateUserVersion stored appName v
          = some (.schemaVersionErr ((stored >>> 24) % 256) v))
    ∧ validateUserVersion (getUserVersion appName 3) appName 4
        = some (.schemaVersionErr 3 4) := by
  refine ⟨fun h => validateUserVersion_appId appName v h,
    fun hne hid => validateUserVersion_schemaVers appName hst hv hne hid, ?_⟩
  have h3 : (3 : Nat) < 256 := by norm_num
  have h4 : (4 : Nat) < 256 := by norm_num
  have e3 := getUserVersion_shiftRight24 appName h3
  have e4 := getUserVersion_shiftRight24 appName h4
  have hne : getUserVersion appName 3 ≠ getUserVersion appName 4 := by
    intro he; rw [he] at e3; omega
  have hid : getUserVersion appName 3 &&& 0xffffff
      = getUserVersion appName 4 &&& 0xffffff := by
    rw [getUserVersion_low24 appName h3, getUserVersion_low24 appName h4]
  have hres := validateUserVersion_schemaVers appName
    (getUserVersion_lt appName h3) h4 hne hid
  rw [e3] at hres
  simpa using hres

/-- Witness for C3 at register 0 and `("app", 3)`, and at the concrete
3-versus-4 instance. -/
theorem C3_mismatch_priority_witness :
    (0 : Nat) < 4294967296 ∧ (3 : Nat) < 256
    ∧ validateUserVersion 0 "app" 3
        = some (.appIdErr (0 &&& 0xffffff) (getUserVersion "app" 3 &&& 0xffffff))
    ∧ validateUserVersion (getUserVersion "app" 3) "app" 4
        = some (.schemaVersionErr 3 4) :=
  ⟨by norm_num, by norm_num,
   (C3_mismatch_priority 0 "app" 3 (by norm_num) (by norm_num)).1 (by decide),
   (C3_mismatch_priority 0 "app" 3 (by norm_num) (by norm_num)).2.2⟩

/-- C10: validation returns no error exactly when the stored register equals
the expected fingerprint; whenever the two 32-bit values differ the
sub-field split is exhaustive, so exactly one of the two structured errors
is returned — the mismatch branch can never fall through to success. -/
theorem C10_validate_none_iff (stored : Nat) (appName : String) (v : Nat)
    (hst : stored < 4294967296) (hv : v < 256) :
    (validateUserVersion stored appName v = none
      ↔ stored = getUserVersion appName v)
    ∧ (stored ≠ getUserVersion appName v →
        validateUserVersion stored appName v
            = some (.appIdErr (stored &&& 0xffffff)
                (getUserVersion appName v &&& 0xffffff))
          ∨ validateUserVersion stored appName v
            = some (.schemaVersionErr ((stored >>> 24) % 256) v)) :=
  ⟨validateUserVersion_eq_none_iff appName hst hv,
   fun hne => validateUserVersion_of_ne appName hst hv hne⟩

/-- Witness for C10 at register 0 and `("app", 3)`. -/
theorem C10_validate_none_iff_witness :
    (0 : Nat) < 4294967296 ∧ (3 : Nat) < 256
    ∧ ((validateUserVersion 0 "app" 3 = none ↔ (0 : Nat) = getUserVersion "app" 3)
      ∧ ((0 : Nat) ≠ getUserVersion "app" 3 →
          validateUserVersion 0 "app" 3
              = some (.appIdErr (0 &&& 0xffffff) (getUserVersion "app" 3 &&& 0xffffff))
            ∨ validateUserVersion 0 "app" 3
              = some (.schemaVersionErr ((0 >>> 24) % 256) 3))) :=
  ⟨by norm_num, by norm_num,
   C10_validate_none_iff 0 "app" 3 (by norm_num) (by norm_num)⟩

/-- C1 (code bug): the creation branch of `InitAppDB` DISCARDS the error of
`initSchema` (source line `initSchema(db, appName, schemaVersion, schema)`
with the returned error unchecked).  With an engine that rejects every
statement, `initSchema` reports a schema error on the very first statement,
yet `InitAppDB` on a fresh path returns the handle with no error — the
failure is swallowed, contradicting the spec's propagation policy. -/
theorem C1_init_error_swallowed :
    (initSchema failEverything emptyDb "app" 3 []).2
        = some (.schemaErr (userVersionStmt (getUserVersion "app" 3))
            ⟨"disk I/O error"⟩)
    ∧ (InitAppDB failEverything emptyFs "/data/app.db" "app" 3 []).1
        = .ok emptyDb :=
  ⟨rfl, rfl⟩

/-- C7 (code bug): the initialize/open round-trip fails on the code.  On a
fresh path with an engine that rejects every statement, `InitAppDB` reports
success (the swallowed `initSchema` failure of C1) and leaves the register
at 0, so the immediately following `OpenAppDB` at the same path with the
identical `appName` and `schemaVersion` fails validation instead of
succeeding. -/
theorem C7_roundtrip_broken_by_swallowed_error :
    (InitAppDB failEverything emptyFs "/data/app.db" "app" 3 []).1
        = .ok emptyDb
    ∧ (InitAppDB failEverything emptyFs "/data/app.db" "app" 3 []).2.2
        = updateFs emptyFs "/data/app.db" emptyDb
    ∧ (OpenAppDB (updateFs emptyFs "/data/app.db" emptyDb)
        "/data/app.db" "app" 3).1
        = .error (.appIdErr 0 13529761)
    ∧ (OpenAppDB (updateFs emptyFs "/data/app.db" emptyDb)
        "/data/app.db" "app" 3).2.1
        = [.opened, .closed] :=
  ⟨rfl, rfl, by decide, by decide⟩

/-- C4: whenever `OpenAppDB` opens the file and validation then fails, the
result is exactly the validation error with the handle-event trace
`[opened, closed]` — the handle is closed before the error is returned, no
handle is returned alongside the error, and the filesystem is untouched. -/
theorem C4_validation_failure_closes_handle (fs : Fs) (dbPath appName : String)
    (v : Nat) (db : DbFile) (e : AppError)
    (hopen : openAppDBNoValidate fs dbPath = .ok db)
    (hval : validateDB db appName v = some e) :
    OpenAppDB fs dbPath appName v = (.error e, [.opened, .closed], fs) := by
  simp only [OpenAppDB, hopen, hval]

/-- Witness for C4: a file whose register is 0 opened as `("app", 3)`. -/
theorem C4_validation_failure_closes_handle_witness :
    openAppDBNoValidate (updateFs emptyFs "/p" emptyDb) "/p" = .ok emptyDb
    ∧ validateDB emptyDb "app" 3 = some (.appIdErr 0 13529761)
    ∧ OpenAppDB (updateFs emptyFs "/p" emptyDb) "/p" "app" 3
        = (.error (.appIdErr 0 13529761), [.opened, .closed],
           updateFs emptyFs "/p" emptyDb) :=
  ⟨rfl, by decide,
   C4_validation_failure_closes_handle (updateFs emptyFs "/p" emptyDb) "/p"
     "app" 3 emptyDb (.appIdErr 0 13529761) rfl (by decide)⟩

/-- C8: opening a path whose entry is a directory (not a regular file) fails
with the filesystem invalid-type error `os.ErrInvalid` — not an engine
error — and returns no handle, through `openAppDBNoValidate` and therefore
through `OpenAppDB`; a missing path fails with the stat error. -/
theorem C8_open_rejects_non_regular (fs : Fs) (dbPath appName : String)
    (v : Nat) :
    (fs dbPath = .directory →
      openAppDBNoValidate fs dbPath = .error .invalidErr
      ∧ OpenAppDB fs dbPath appName v = (.error .invalidErr, [], fs))
    ∧ (fs dbPath = .missing →
      openAppDBNoValidate fs dbPath = .error (.statNotExistErr dbPath)
      ∧ OpenAppDB fs dbPath appName v
          = (.error (.statNotExistErr dbPath), [], fs)) := by
  constructor
  · intro h
    have ho : openAppDBNoValidate fs dbPath = .error .invalidErr := by
      rw [openAppDBNoValidate, h]
    exact ⟨ho, by simp only [OpenAppDB, ho]⟩
  · intro h
    have ho : openAppDBNoValidate fs dbPath = .error (.statNotExistErr dbPath) := by
      rw [openAppDBNoValidate, h]
    exact ⟨ho, by rw [OpenAppDB, ho]⟩

/-- Witness for C8: a directory everywhere, and a missing path. -/
theorem C8_open_rejects_non_regular_witness :
    openAppDBNoValidate (fun _ => FsEntry.directory) "/p" = .error .invalidErr
    ∧ openAppDBNoValidate emptyFs "/p" = .error (.statNotExistErr "/p") :=
  ⟨((C8_open_rejects_non_regular (fun _ => FsEntry.directory) "/p" "app" 3).1
      rfl).1,
   ((C8_open_rejects_non_regular emptyFs "/p" "app" 3).2 rfl).1⟩

/-- C5: schema initialization executes, in order: first the statement
setting the version register to `computeFingerprint(appName, schemaVersion)`,
second the statement enabling foreign-key enforcement, then the caller's
statements in the order given; it stops at the first failing statement,
returns a schema error wrapping that statement's text and the underlying
engine error, does not attempt the remaining statements, and keeps the
statements already applied. -/
theorem C5_initSchema_sequence (fails : String → Option EngineErr)
    (db : DbFile) (appName : String) (v : Nat) (schema : List String) :
    initStmts appName v schema
        = userVersionStmt (getUserVersion appName v) :: foreignKeysStmt :: schema
    ∧ (∀ pre s post e, initStmts appName v schema = pre ++ s :: post →
        (∀ t ∈ pre, fails t = none) → fails s = some e →
        initSchema fails db appName v schema
          = (applyStmts pre db, some (.schemaErr s e)))
    ∧ ((∀ t ∈ initStmts appName v schema, fails t = none) →
        initSchema fails db appName v schema
          = (applyStmts (initStmts appName v schema) db, none)) := by
  refine ⟨rfl, ?_, ?_⟩
  · intro pre s post e hsplit hpre hs
    rw [initSchema, hsplit]
    exact runSchema_stops fails pre s post db e hpre hs
  · intro h
    rw [initSchema]
    exact runSchema_all_ok fails _ db h

/-- Witness for C5: schema
`["CREATE TABLE t(x);", "BAD", "CREATE TABLE u(y);"]` under an engine
rejecting exactly `"BAD"`: the two pragmas and the first table statement are
applied, the run stops at `"BAD"` wrapping its text and the engine error,
and the remaining statement is never attempted. -/
theorem C5_initSchema_sequence_witness :
    (∀ t ∈ [userVersionStmt (getUserVersion "app" 3), foreignKeysStmt,
        "CREATE TABLE t(x);"], failOnBad t = none)
    ∧ failOnBad "BAD" = some ⟨"near BAD: syntax error"⟩
    ∧ initSchema failOnBad emptyDb "app" 3
        ["CREATE TABLE t(x);", "BAD", "CREATE TABLE u(y);"]
      = (applyStmts [userVersionStmt (getUserVersion "app" 3), foreignKeysStmt,
          "CREATE TABLE t(x);"] emptyDb,
         some (.schemaErr "BAD" ⟨"near BAD: syntax error"⟩)) := by
  refine ⟨by decide, rfl, ?_⟩
  exact (C5_initSchema_sequence failOnBad emptyDb "app" 3
      ["CREATE TABLE t(x);", "BAD", "CREATE TABLE u(y);"]).2.1
    [userVersionStmt (getUserVersion "app" 3), foreignKeysStmt,
      "CREATE TABLE t(x);"]
    "BAD" ["CREATE TABLE u(y);"] ⟨"near BAD: syntax error"⟩ rfl (by decide) rfl

/-- C6: the register invariant.  The generated first statement of schema
initialization sets the version register to the fingerprint; a successful
`initSchema` over caller statements that are not register writes leaves the
register equal to the fingerprint; `OpenAppDB` (and so validation) never
modifies the filesystem; and the statement helpers never write the register
(for `ExecSqlStatement`, unless the caller's own text is a register
write). -/
theorem C6_register_set_once (fails : String → Option EngineErr)
    (appName : String) (v : Nat) (schema : List String) (db0 : DbFile)
    (hschema : ∀ s ∈ schema, isUserVersionStmt s = false) :
    (applyStmt (userVersionStmt (getUserVersion appName v)) db0).userVersion
        = getUserVersion appName v
    ∧ (∀ db', initSchema fails db0 appName v schema = (db', none) →
        db'.userVersion = getUserVersion appName v)
    ∧ (∀ fs dbPath, (OpenAppDB fs dbPath appName v).2.2 = fs)
    ∧ (∀ s db, isUserVersionStmt s = false →
        (ExecSqlStatement fails db s).1.userVersion = db.userVersion)
    ∧ (∀ p e db sqlText values,
        (ExecBulkSql p e db sqlText values).1.userVersion = db.userVersion) := by
  have hfk : ∀ s ∈ foreignKeysStmt :: schema, isUserVersionStmt s = false := by
    intro s hs
    rcases List.mem_cons.mp hs with h | h
    · rw [h]; decide
    · exact hschema s h
  refine ⟨?_, ?_, ?_, ?_, ?_⟩
  · rw [applyStmt_userVersionStmt]
  · intro db' h
    rw [initSchema, initStmts] at h
    cases hf : fails (userVersionStmt (getUserVersion appName v)) with
    | some e =>
      rw [runSchema_cons_fail fails _ _ _ _ hf] at h
      exact absurd (congrArg Prod.snd h) (by simp)
    | none =>
      rw [runSchema_cons_ok fails _ _ _ hf] at h
      have hp := runSchema_preserves fails (foreignKeysStmt :: schema)
        (applyStmt (userVersionStmt (getUserVersion appName v)) db0) hfk
      rw [h] at hp
      have hd : db'.userVersion
          = (applyStmt (userVersionStmt (getUserVersion appName v))
              db0).userVersion := hp
      rw [hd, applyStmt_userVersionStmt]
  · intro fs dbPath
    cases ho : openAppDBNoValidate fs dbPath with
    | error e => simp [OpenAppDB, ho]
    | ok db => cases hv' : validateDB db appName v <;> simp [OpenAppDB, ho, hv']
  · intro s db h
    cases hf : fails s with
    | some e => simp only [ExecSqlStatement, hf]
    | none =>
      simp only [ExecSqlStatement, hf]
      exact applyStmt_preserves db h
  · intro p e db sqlText values
    cases p with
    | some e' => rfl
    | none =>
      have hp := execBulkLoop_preserves e sqlText values db
      rcases hl : execBulkLoop e sqlText values db with ⟨db', r, evs⟩
      rw [hl] at hp
      simp only [ExecBulkSql, hl]
      exact hp

set_option maxRecDepth 100000

/-- Witness for C6 at `("app", 3)` with one table-creation statement. -/
theorem C6_register_set_once_witness :
    (∀ s ∈ ["CREATE TABLE t(x);"], isUserVersionStmt s = false)
    ∧ (applyStmt (userVersionStmt (getUserVersion "app" 3)) emptyDb).userVersion
        = getUserVersion "app" 3
    ∧ (initSchema noFail emptyDb "app" 3 ["CREATE TABLE t(x);"]).1.userVersion
        = getUserVersion "app" 3
    ∧ (OpenAppDB emptyFs "/p" "app" 3).2.2 = emptyFs
    ∧ (ExecSqlStatement noFail emptyDb "CREATE TABLE t(x);").1.userVersion = 0
    ∧ (ExecBulkSql none noFail emptyDb "INSERT INTO t VALUES ( ? );"
        ["a", "b"]).1.userVersion = 0 := by
  have hs : ∀ s ∈ ["CREATE TABLE t(x);"], isUserVersionStmt s = false := by
    decide
  have T := C6_register_set_once noFail "app" 3 ["CREATE TABLE t(x);"] emptyDb hs
  exact ⟨hs, T.1,
    T.2.1 (initSchema noFail emptyDb "app" 3 ["CREATE TABLE t(x);"]).1
      (by decide),
    T.2.2.1 emptyFs "/p",
    T.2.2.2.1 "CREATE TABLE t(x);" emptyDb (by decide),
    T.2.2.2.2 none noFail emptyDb "INSERT INTO t VALUES ( ? );" ["a", "b"]⟩

/-- C9: `ExecBulkSql` prepares the statement once, executes it once per value
in the given order, stops at the first execution error returning it, and the
prepared statement is closed on every exit path that prepared one (the
traces end in `closedStmt`); with an empty value sequence it performs zero
executions and returns no error; a prepare failure executes nothing. -/
theorem C9_execBulk_spec (execF : String → Option EngineErr) (db : DbFile)
    (sqlText : String) (values : List String) :
    ExecBulkSql none execF db sqlText [] = (db, none, [.prepared, .closedStmt])
    ∧ ((∀ u ∈ values, execF u = none) →
        ExecBulkSql none execF db sqlText values
          = (bulkApply sqlText values db, none,
             .prepared :: values.map BulkEv.execed ++ [.closedStmt]))
    ∧ (∀ pre u post e, values = pre ++ u :: post →
        (∀ t ∈ pre, execF t = none) → execF u = some e →
        ExecBulkSql none execF db sqlText values
          = (bulkApply sqlText pre db, some e,
             .prepared :: (pre.map BulkEv.execed ++ [BulkEv.execed u])
               ++ [.closedStmt]))
    ∧ (∀ e, ExecBulkSql (some e) execF db sqlText values = (db, some e, [])) := by
  refine ⟨?_, ?_, ?_, fun e => rfl⟩
  · simp [ExecBulkSql, execBulkLoop, bulkApply]
  · intro h
    simp only [ExecBulkSql, execBulkLoop_all_ok execF sqlText values db h]
  · intro pre u post e hsplit hpre hu
    rw [hsplit]
    simp only [ExecBulkSql,
      execBulkLoop_stops execF sqlText pre u post db e hpre hu]

/-- Witness for C9: an empty run, an all-success run, a run failing at the
second value, and a failed prepare. -/
theorem C9_execBulk_spec_witness :
    ExecBulkSql none noFail emptyDb "INSERT INTO t VALUES ( ? );" []
        = (emptyDb, none, [.prepared, .closedStmt])
    ∧ ExecBulkSql none noFail emptyDb "INSERT INTO t VALUES ( ? );" ["a", "b"]
        = (bulkApply "INSERT INTO t VALUES ( ? );" ["a", "b"] emptyDb, none,
           [.prepared, .execed "a", .execed "b", .closedStmt])
    ∧ ExecBulkSql none failOnB emptyDb "INSERT INTO t VALUES ( ? );"
        ["a", "b", "c"]
        = (bulkApply "INSERT INTO t VALUES ( ? );" ["a"] emptyDb,
           some ⟨"constraint failed"⟩,
           [.prepared, .execed "a", .execed "b", .closedStmt])
    ∧ ExecBulkSql (some ⟨"prepare failed"⟩) noFail emptyDb
        "INSERT INTO t VALUES ( ? );" ["a"]
        = (emptyDb, some ⟨"prepare failed"⟩, []) :=
  ⟨(C9_execBulk_spec noFail emptyDb "INSERT INTO t VALUES ( ? );" []).1,
   (C9_execBulk_spec noFail emptyDb "INSERT INTO t VALUES ( ? );"
      ["a", "b"]).2.1 (by decide),
   (C9_execBulk_spec failOnB emptyDb "INSERT INTO t VALUES ( ? );"
      ["a", "b", "c"]).2.2.1 ["a"] "b" ["c"] ⟨"constraint failed"⟩ rfl
     (by decide) rfl,
   (C9_execBulk_spec noFail emptyDb "INSERT INTO t VALUES ( ? );"
      ["a"]).2.2.2 ⟨"prepare failed"⟩⟩

end Appdb
